import Mathlib

/-!
Shallow embedding of `packages/firestore/src/local/memory_persistence.ts`:
the memory-backed `Persistence` implementation, its two reference delegates
(`MemoryEagerDelegate` and `MemoryLruDelegate`), and
`MemoryPersistenceProvider`.

Document keys are modelled as `Nat`; the external collaborators (target
cache, per-user mutation queues, in-memory pin set, remote document cache)
are modelled by the questions this file asks them: key containment and
key enumeration, with state carried explicitly in a `PState` record.
`PersistencePromise`-returning operations are sequential and deterministic
on the single logical task queue, so they are modelled as pure state
transformers; operations that can throw return `Except Failure`.
-/

/-- Error codes from `util/error` used by this file. -/
inductive Code where
  | FAILED_PRECONDITION
  deriving DecidableEq, Repr

/-- A thrown JS error. `fail` from `util/assert` throws an unconditional
internal assertion failure (a programming error, never caught and
recovered); `FirestoreError` is the user-visible error type carrying a
`Code`. -/
inductive Failure where
  | assertionFailure (msg : String)
  | firestoreError (code : Code) (msg : String)
  deriving DecidableEq, Repr

/-- The fixed message of `MEMORY_ONLY_PERSISTENCE_ERROR_MESSAGE`. -/
def MEMORY_ONLY_PERSISTENCE_ERROR_MESSAGE : String :=
  "You are using the memory-only build of Firestore. Persistence support is only available via the @firebase/firestore bundle or the firebase-firestore.js build."

/-- Message of the `fail` call in the `orphanedDocuments` getter. -/
def ORPHANED_DOCUMENTS_ASSERTION_MESSAGE : String :=
  "orphanedDocuments is only valid during a transaction."

abbrev DocumentKey := Nat
abbrev ListenSequenceNumber := Nat
abbrev TargetId := Nat

/-- `TargetData`: metadata of one target, restricted to the fields this
file touches (`targetId` and the last-used `sequenceNumber`). -/
structure TargetData where
  targetId : TargetId
  sequenceNumber : ListenSequenceNumber
  deriving DecidableEq, Repr

/-- `TargetData.withSequenceNumber`: copy with a new sequence number. -/
def TargetData.withSequenceNumber (td : TargetData)
    (seq : ListenSequenceNumber) : TargetData :=
  { td with sequenceNumber := seq }

/-- One entry of the target cache: its `TargetData` plus the set of
document keys the target currently matches (the target cache's reference
set, answering `getMatchingKeysForTargetId` and `containsKey`). -/
structure TargetEntry where
  data : TargetData
  matchingKeys : List DocumentKey
  deriving DecidableEq, Repr

/-- The combined state of a `MemoryPersistence` instance and its
reference delegate:
* `targets` — the `MemoryTargetCache` contents;
* `mutationQueues` — per-user `MemoryMutationQueue`s, each the set of
  keys its pending mutations touch (answering `containsKey`);
* `inMemoryPins` — the borrowed `ReferenceSet` of in-memory pins;
* `docCache` — keys present in the `MemoryRemoteDocumentCache`;
* `orphanedSequenceNumbers` — the LRU delegate's `ObjectMap` from key to
  sequence number of the most recent dereference (modelled as a partial
  function, the extensional content of the hash map);
* `orphanedDocumentsOpt` — the eager delegate's nullable
  `_orphanedDocuments` scratch set (`none` models `null`). -/
structure PState where
  targets : List TargetEntry
  mutationQueues : List (List DocumentKey)
  inMemoryPins : List DocumentKey
  docCache : List DocumentKey
  orphanedSequenceNumbers : DocumentKey → Option ListenSequenceNumber
  orphanedDocumentsOpt : Option (List DocumentKey)

/-- `PersistencePromise.or`: evaluates the deferred boolean predicates in
order, resolving `true` at the first predicate that returns `true` and
evaluating no later predicate; `false` when all return `false`. -/
def PersistencePromise.or : List (Unit → Bool) → Bool
  | [] => false
  | p :: ps => if p () then true else PersistencePromise.or ps

/-- Instrumented variant of `PersistencePromise.or`: also counts how many
of the deferred predicates were forced before the result was known. -/
def lazyOrCount : List (Unit → Bool) → Bool × Nat
  | [] => (false, 0)
  | p :: ps =>
    if p () then (true, 1)
    else
      let r := lazyOrCount ps
      (r.1, r.2 + 1)

/-- JS `Set.add`: insert the key if absent (model keeps insertion order). -/
def setAdd (l : List DocumentKey) (key : DocumentKey) : List DocumentKey :=
  if l.contains key then l else l ++ [key]

/-- JS `Set.delete`: remove the key. -/
def setDelete (l : List DocumentKey) (key : DocumentKey) : List DocumentKey :=
  l.filter (fun x => x != key)

/-- `ObjectMap.get` on the LRU orphan map: `undefined` is `none`. -/
def ObjectMap.get (m : DocumentKey → Option ListenSequenceNumber)
    (key : DocumentKey) : Option ListenSequenceNumber :=
  m key

/-- `ObjectMap.set` on the LRU orphan map: overwrite the entry for the
key, keeping every other entry. -/
def ObjectMap.set (m : DocumentKey → Option ListenSequenceNumber)
    (key : DocumentKey) (seq : ListenSequenceNumber) :
    DocumentKey → Option ListenSequenceNumber :=
  fun k => if k == key then some seq else m k

/-- `MemoryTargetCache.containsKey`: does some active target still match
the key. -/
def targetCacheContainsKey (s : PState) (key : DocumentKey) : Bool :=
  s.targets.any (fun e => e.matchingKeys.contains key)

/-- `MemoryTargetCache.getMatchingKeysForTargetId`. -/
def getMatchingKeysForTargetId (s : PState) (targetId : TargetId) :
    List DocumentKey :=
  (((s.targets.find? (fun e => e.data.targetId == targetId)).map
    (fun e => e.matchingKeys))).getD []

/-- `MemoryTargetCache.removeTargetData`: delete the target's metadata. -/
def removeTargetData (s : PState) (td : TargetData) : PState :=
  { s with targets := s.targets.filter (fun e => e.data.targetId != td.targetId) }

/-- `MemoryTargetCache.updateTargetData`: replace the stored `TargetData`
of the target with the same id. -/
def updateTargetData (s : PState) (td : TargetData) : PState :=
  { s with targets := (s.targets.map
      (fun e => if e.data.targetId == td.targetId then { e with data := td } else e)) }

/-- `ReferenceSet.containsKey` on the in-memory pin set. -/
def pinsContainKey (s : PState) (key : DocumentKey) : Bool :=
  s.inMemoryPins.contains key

/-- `MemoryPersistence.mutationQueuesContainKey`: `PersistencePromise.or`
of `queue.containsKey` over every per-user mutation queue. -/
def MemoryPersistence.mutationQueuesContainKey (s : PState)
    (key : DocumentKey) : Bool :=
  PersistencePromise.or
    (s.mutationQueues.map (fun queue => fun _ => queue.contains key))

/-! ## MemoryEagerDelegate -/

/-- The `orphanedDocuments` getter: throws `fail(...)` when
`_orphanedDocuments` is `null` (outside a transaction), otherwise
returns the scratch set. -/
def MemoryEagerDelegate.orphanedDocuments (s : PState) :
    Except Failure (List DocumentKey) :=
  match s.orphanedDocumentsOpt with
  | none => .error (.assertionFailure ORPHANED_DOCUMENTS_ASSERTION_MESSAGE)
  | some os => .ok os

/-- `MemoryEagerDelegate.addReference`: drop the key from the
orphan-candidate scratch set. -/
def MemoryEagerDelegate.addReference (s : PState) (key : DocumentKey) :
    Except Failure PState :=
  (MemoryEagerDelegate.orphanedDocuments s).map
    (fun os => { s with orphanedDocumentsOpt := some (setDelete os key) })

/-- `MemoryEagerDelegate.removeReference`: add the key to the
orphan-candidate scratch set. -/
def MemoryEagerDelegate.removeReference (s : PState) (key : DocumentKey) :
    Except Failure PState :=
  (MemoryEagerDelegate.orphanedDocuments s).map
    (fun os => { s with orphanedDocumentsOpt := some (setAdd os key) })

/-- `MemoryEagerDelegate.removeMutationReference`: add the key to the
orphan-candidate scratch set. -/
def MemoryEagerDelegate.removeMutationReference (s : PState)
    (key : DocumentKey) : Except Failure PState :=
  (MemoryEagerDelegate.orphanedDocuments s).map
    (fun os => { s with orphanedDocumentsOpt := some (setAdd os key) })

/-- Pure part of `MemoryEagerDelegate.removeTarget` once the scratch set
`os` has been read: add every key the target still matched to the scratch
set, then delete the target's metadata from the target cache. -/
def MemoryEagerDelegate.removeTargetState (s : PState)
    (os : List DocumentKey) (td : TargetData) : PState :=
  removeTargetData
    { s with orphanedDocumentsOpt :=
        (some ((getMatchingKeysForTargetId s td.targetId).foldl setAdd os)) }
    td

/-- `MemoryEagerDelegate.removeTarget`. -/
def MemoryEagerDelegate.removeTarget (s : PState) (td : TargetData) :
    Except Failure PState :=
  (MemoryEagerDelegate.orphanedDocuments s).map
    (fun os => MemoryEagerDelegate.removeTargetState s os td)

/-- `MemoryEagerDelegate.onTransactionStarted`: allocate a fresh empty
orphan-candidate scratch set. -/
def MemoryEagerDelegate.onTransactionStarted (s : PState) : PState :=
  { s with orphanedDocumentsOpt := some [] }

/-- `MemoryEagerDelegate.isReferenced`: lazy OR of target-cache
containment, any-mutation-queue containment, and in-memory-pin
containment, in that order. -/
def MemoryEagerDelegate.isReferenced (s : PState) (key : DocumentKey) :
    Bool :=
  PersistencePromise.or
    [fun _ => targetCacheContainsKey s key,
     fun _ => MemoryPersistence.mutationQueuesContainKey s key,
     fun _ => pinsContainKey s key]

/-- The change buffer staged by `onTransactionCommitted`: iterate the
orphan-candidate set, staging `removeEntry(key)` for every candidate that
`isReferenced` rejects. -/
def MemoryEagerDelegate.eagerCommitChangeBuffer (s : PState)
    (os : List DocumentKey) : List DocumentKey :=
  os.foldl
    (fun buf key =>
      if MemoryEagerDelegate.isReferenced s key then buf else buf ++ [key])
    []

/-- Pure part of `MemoryEagerDelegate.onTransactionCommitted` once the
scratch set `os` has been read: null out `_orphanedDocuments` and apply
the staged change buffer to the remote document cache. -/
def MemoryEagerDelegate.commitState (s : PState) (os : List DocumentKey) :
    PState :=
  { s with
    orphanedDocumentsOpt := none,
    docCache := s.docCache.filter
      (fun k => !((MemoryEagerDelegate.eagerCommitChangeBuffer s os).contains k)) }

/-- `MemoryEagerDelegate.onTransactionCommitted`. -/
def MemoryEagerDelegate.onTransactionCommitted (s : PState) :
    Except Failure PState :=
  (MemoryEagerDelegate.orphanedDocuments s).map
    (fun os => MemoryEagerDelegate.commitState s os)

/-- `MemoryEagerDelegate.updateLimboDocument`: recompute the key's
orphan-candidate status from `isReferenced`. -/
def MemoryEagerDelegate.updateLimboDocument (s : PState)
    (key : DocumentKey) : Except Failure PState :=
  if MemoryEagerDelegate.isReferenced s key then
    MemoryEagerDelegate.addReference s key
  else
    MemoryEagerDelegate.removeReference s key

/-! ## MemoryLruDelegate -/

/-- `MemoryLruDelegate.addReference`: overwrite the key's orphan
timestamp with the current transaction's sequence number. -/
def MemoryLruDelegate.addReference (s : PState)
    (currentSequenceNumber : ListenSequenceNumber) (key : DocumentKey) :
    PState :=
  { s with orphanedSequenceNumbers :=
      ObjectMap.set s.orphanedSequenceNumbers key currentSequenceNumber }

/-- `MemoryLruDelegate.removeReference`: overwrite the key's orphan
timestamp with the current transaction's sequence number. -/
def MemoryLruDelegate.removeReference (s : PState)
    (currentSequenceNumber : ListenSequenceNumber) (key : DocumentKey) :
    PState :=
  { s with orphanedSequenceNumbers :=
      ObjectMap.set s.orphanedSequenceNumbers key currentSequenceNumber }

/-- `MemoryLruDelegate.removeMutationReference`: overwrite the key's
orphan timestamp with the current transaction's sequence number. -/
def MemoryLruDelegate.removeMutationReference (s : PState)
    (currentSequenceNumber : ListenSequenceNumber) (key : DocumentKey) :
    PState :=
  { s with orphanedSequenceNumbers :=
      ObjectMap.set s.orphanedSequenceNumbers key currentSequenceNumber }

/-- `MemoryLruDelegate.updateLimboDocument`: overwrite the key's orphan
timestamp with the current transaction's sequence number. -/
def MemoryLruDelegate.updateLimboDocument (s : PState)
    (currentSequenceNumber : ListenSequenceNumber) (key : DocumentKey) :
    PState :=
  { s with orphanedSequenceNumbers :=
      ObjectMap.set s.orphanedSequenceNumbers key currentSequenceNumber }

/-- `MemoryLruDelegate.removeTarget`: rewrite the target's metadata with
the current transaction's sequence number (no deletion, no orphaning). -/
def MemoryLruDelegate.removeTarget (s : PState)
    (currentSequenceNumber : ListenSequenceNumber) (td : TargetData) :
    PState :=
  updateTargetData s (td.withSequenceNumber currentSequenceNumber)

/-- Predicate (d) of `isPinned`: the key's orphan timestamp exists and is
strictly greater than the sweep's upper bound. -/
def MemoryLruDelegate.orphanedAfter (s : PState) (key : DocumentKey)
    (upperBound : ListenSequenceNumber) : Bool :=
  match ObjectMap.get s.orphanedSequenceNumbers key with
  | some orphanedAt => decide (orphanedAt > upperBound)
  | none => false

/-- Instrumented `MemoryLruDelegate.isPinned`: the lazy OR of its four
predicates in source order, together with the number of predicates that
were actually evaluated. -/
def MemoryLruDelegate.isPinnedE (s : PState) (key : DocumentKey)
    (upperBound : ListenSequenceNumber) : Bool × Nat :=
  lazyOrCount
    [fun _ => MemoryPersistence.mutationQueuesContainKey s key,
     fun _ => pinsContainKey s key,
     fun _ => targetCacheContainsKey s key,
     fun _ => MemoryLruDelegate.orphanedAfter s key upperBound]

/-- `MemoryLruDelegate.isPinned`. -/
def MemoryLruDelegate.isPinned (s : PState) (key : DocumentKey)
    (upperBound : ListenSequenceNumber) : Bool :=
  (MemoryLruDelegate.isPinnedE s key upperBound).1

/-- The fold body of `removeOrphanedDocuments`: iterate every key of the
document cache, incrementing the counter and staging `removeEntry(key)`
in the change buffer for every key that is not pinned. -/
def MemoryLruDelegate.removeOrphanedFold (s : PState)
    (upperBound : ListenSequenceNumber) : Nat × List DocumentKey :=
  s.docCache.foldl
    (fun acc key =>
      if MemoryLruDelegate.isPinned s key upperBound then acc
      else (acc.1 + 1, acc.2 ++ [key]))
    (0, [])

/-- `MemoryLruDelegate.removeOrphanedDocuments`: scan the full document
cache, stage removal of every key whose `isPinned` is false, apply the
change buffer, and return the count removed together with the state. -/
def MemoryLruDelegate.removeOrphanedDocuments (s : PState)
    (upperBound : ListenSequenceNumber) : Nat × PState :=
  let r := MemoryLruDelegate.removeOrphanedFold s upperBound
  (r.1,
   { s with docCache := s.docCache.filter (fun k => !(r.2.contains k)) })

/-- The four reference events of the LRU delegate that overwrite a key's
orphan timestamp. -/
inductive LruRefEvent where
  | addReference
  | removeReference
  | removeMutationReference
  | updateLimboDocument
  deriving DecidableEq, Repr

/-- Dispatch one LRU reference event for a key at a sequence number. -/
def MemoryLruDelegate.applyRefEvent (s : PState)
    (currentSequenceNumber : ListenSequenceNumber) (key : DocumentKey) :
    LruRefEvent → PState
  | .addReference => MemoryLruDelegate.addReference s currentSequenceNumber key
  | .removeReference =>
      MemoryLruDelegate.removeReference s currentSequenceNumber key
  | .removeMutationReference =>
      MemoryLruDelegate.removeMutationReference s currentSequenceNumber key
  | .updateLimboDocument =>
      MemoryLruDelegate.updateLimboDocument s currentSequenceNumber key

/-! ## MemoryPersistenceProvider -/

/-- `PersistenceSettings`, restricted to the field `initialize` reads. -/
structure PersistenceSettings where
  durable : Bool
  deriving DecidableEq, Repr

/-- Which reference-delegate variant a `MemoryPersistence` was built
with. -/
inductive DelegateKind where
  | eager
  | lru
  deriving DecidableEq, Repr

/-- A constructed `MemoryPersistence`, recording which delegate its
factory produced. -/
structure MemoryPersistenceObj where
  referenceDelegate : DelegateKind
  deriving DecidableEq, Repr

/-- The objects `initialize` constructs, in construction order. -/
inductive ConstructedObject where
  | persistence
  | sharedClientState
  | localStore
  | syncEngine
  deriving DecidableEq, Repr

/-- The provider's fields after a successful `initialize`. -/
structure ProviderState where
  persistence : MemoryPersistenceObj
  deriving DecidableEq, Repr

/-- `MemoryPersistenceProvider.initialize`: throws a
`FAILED_PRECONDITION` `FirestoreError` with the fixed memory-only message
when the settings request durable storage — before constructing anything
(the returned construction trace is empty) — and otherwise constructs the
persistence with a `MemoryEagerDelegate` factory, then the shared client
state, local store, and sync engine. -/
def MemoryPersistenceProvider.initializeProvider (settings : PersistenceSettings) :
    List ConstructedObject × Except Failure ProviderState :=
  if settings.durable then
    ([],
     .error (.firestoreError .FAILED_PRECONDITION
        MEMORY_ONLY_PERSISTENCE_ERROR_MESSAGE))
  else
    ([.persistence, .sharedClientState, .localStore, .syncEngine],
     .ok { persistence := { referenceDelegate := .eager } })

/-- `MemoryPersistenceProvider.clearPersistence`: always throws the
`FAILED_PRECONDITION` `FirestoreError` with the fixed memory-only
message. -/
def MemoryPersistenceProvider.clearPersistence : Except Failure Unit :=
  .error (.firestoreError .FAILED_PRECONDITION
    MEMORY_ONLY_PERSISTENCE_ERROR_MESSAGE)

/-- The scheduler object returned by `getGarbageCollectionScheduler`:
`started` is the object's visible property, a copy of the local variable
taken when the object literal was built; `startedLocal` is the captured
local variable that the `start`/`stop` closures assign to. -/
structure GarbageCollectionScheduler where
  started : Bool
  startedLocal : Bool
  deriving DecidableEq, Repr

/-- `MemoryPersistenceProvider.getGarbageCollectionScheduler`: a fresh
scheduler whose local flag is `false` and whose `started` property is the
value of that flag at creation. -/
def MemoryPersistenceProvider.getGarbageCollectionScheduler :
    GarbageCollectionScheduler :=
  { started := false, startedLocal := false }

/-- `scheduler.start()`: assigns `true` to the captured local variable. -/
def GarbageCollectionScheduler.start (s : GarbageCollectionScheduler) :
    GarbageCollectionScheduler :=
  { s with startedLocal := true }

/-- `scheduler.stop()`: assigns `false` to the captured local variable. -/
def GarbageCollectionScheduler.stop (s : GarbageCollectionScheduler) :
    GarbageCollectionScheduler :=
  { s with startedLocal := false }

/-- A call on the scheduler object. -/
inductive SchedulerCall where
  | start
  | stop
  deriving DecidableEq, Repr

/-- Apply a sequence of `start`/`stop` calls to a scheduler. -/
def applySchedulerCalls (calls : List SchedulerCall)
    (s : GarbageCollectionScheduler) : GarbageCollectionScheduler :=
  calls.foldl
    (fun s c =>
      match c with
      | .start => GarbageCollectionScheduler.start s
      | .stop => GarbageCollectionScheduler.stop s)
    s

/-! ## Helper lemmas -/

lemma stageFold_eq (p : DocumentKey → Bool) (l acc : List DocumentKey) :
    List.foldl (fun buf k => if p k then buf else buf ++ [k]) acc l =
      acc ++ l.filter (fun k => !(p k)) := by
  induction l generalizing acc with
  | nil => simp
  | cons k l ih =>
    by_cases hk : p k
    · simp [List.foldl_cons, hk, List.filter_cons, ih]
    · simp [List.foldl_cons, hk, List.filter_cons, ih]

lemma countStageFold_eq (p : DocumentKey → Bool) (l : List DocumentKey)
    (c : Nat) (b : List DocumentKey) :
    List.foldl
      (fun (acc : Nat × List DocumentKey) k =>
        if p k then acc else (acc.1 + 1, acc.2 ++ [k])) (c, b) l =
      (c + (l.filter (fun k => !(p k))).length,
       b ++ l.filter (fun k => !(p k))) := by
  induction l generalizing c b with
  | nil => simp
  | cons k l ih =>
    by_cases hk : p k
    · simp [List.foldl_cons, hk, List.filter_cons, ih]
    · simp only [List.foldl_cons, hk, Bool.not_eq_true, if_neg, List.filter_cons,
        Bool.not_false, if_pos, ih]
      refine Prod.ext ?_ ?_
      · simp; omega
      · simp

lemma mem_setAdd (l : List DocumentKey) (k x : DocumentKey) :
    x ∈ setAdd l k ↔ x ∈ l ∨ x = k := by
  unfold setAdd
  by_cases h : l.contains k
  · simp only [h, if_pos]
    exact ⟨Or.inl, fun hx => hx.elim id (fun he => he ▸ List.elem_iff.mp h)⟩
  · have h2 : k ∉ l := fun hm => h (List.elem_iff.mpr hm)
    simp [h, h2, List.mem_append]

lemma mem_setDelete (l : List DocumentKey) (k x : DocumentKey) :
    x ∈ setDelete l k ↔ x ∈ l ∧ x ≠ k := by
  simp [setDelete, List.mem_filter]

lemma mem_foldl_setAdd (l : List DocumentKey) :
    ∀ (acc : List DocumentKey) (x : DocumentKey),
      x ∈ l.foldl setAdd acc ↔ x ∈ acc ∨ x ∈ l := by
  induction l with
  | nil => intro acc x; simp
  | cons k l ih =>
    intro acc x
    rw [List.foldl_cons, ih, mem_setAdd]
    simp [List.mem_cons]
    tauto

lemma isReferenced_eq_or (s : PState) (key : DocumentKey) :
    MemoryEagerDelegate.isReferenced s key =
      (targetCacheContainsKey s key ||
       MemoryPersistence.mutationQueuesContainKey s key ||
       pinsContainKey s key) := by
  unfold MemoryEagerDelegate.isReferenced
  cases h1 : targetCacheContainsKey s key <;>
  cases h2 : MemoryPersistence.mutationQueuesContainKey s key <;>
  cases h3 : pinsContainKey s key <;>
    simp [PersistencePromise.or, h1, h2, h3]

lemma isPinned_eq_or (s : PState) (key : DocumentKey)
    (upperBound : ListenSequenceNumber) :
    MemoryLruDelegate.isPinned s key upperBound =
      (MemoryPersistence.mutationQueuesContainKey s key ||
       pinsContainKey s key ||
       targetCacheContainsKey s key ||
       MemoryLruDelegate.orphanedAfter s key upperBound) := by
  unfold MemoryLruDelegate.isPinned MemoryLruDelegate.isPinnedE
  cases h1 : MemoryPersistence.mutationQueuesContainKey s key <;>
  cases h2 : pinsContainKey s key <;>
  cases h3 : targetCacheContainsKey s key <;>
  cases h4 : MemoryLruDelegate.orphanedAfter s key upperBound <;>
    simp [lazyOrCount, h1, h2, h3, h4]

lemma eagerCommitChangeBuffer_eq (s : PState) (os : List DocumentKey) :
    MemoryEagerDelegate.eagerCommitChangeBuffer s os =
      os.filter (fun k => !(MemoryEagerDelegate.isReferenced s k)) := by
  unfold MemoryEagerDelegate.eagerCommitChangeBuffer
  rw [stageFold_eq]
  simp

lemma mem_commitState_docCache (s : PState) (os : List DocumentKey)
    (key : DocumentKey) :
    key ∈ (MemoryEagerDelegate.commitState s os).docCache ↔
      key ∈ s.docCache ∧
        ¬(key ∈ os ∧ MemoryEagerDelegate.isReferenced s key = false) := by
  unfold MemoryEagerDelegate.commitState
  simp only [List.mem_filter, eagerCommitChangeBuffer_eq]
  constructor
  · rintro ⟨hmem, hbuf⟩
    refine ⟨hmem, ?_⟩
    rintro ⟨hos, href⟩
    rw [Bool.not_eq_true', ← Bool.not_eq_true] at hbuf
    exact hbuf (List.elem_iff.mpr (List.mem_filter.mpr ⟨hos, by simp [href]⟩))
  · rintro ⟨hmem, hno⟩
    refine ⟨hmem, ?_⟩
    rw [Bool.not_eq_true', ← Bool.not_eq_true]
    intro hcontains
    have hm := List.mem_filter.mp (List.elem_iff.mp hcontains)
    exact hno ⟨hm.1, by simpa using hm.2⟩

lemma removeOrphanedFold_eq (s : PState) (upperBound : ListenSequenceNumber) :
    MemoryLruDelegate.removeOrphanedFold s upperBound =
      ((s.docCache.filter
          (fun k => !(MemoryLruDelegate.isPinned s k upperBound))).length,
       s.docCache.filter
          (fun k => !(MemoryLruDelegate.isPinned s k upperBound))) := by
  unfold MemoryLruDelegate.removeOrphanedFold
  rw [countStageFold_eq]
  simp

lemma mem_removeOrphanedDocuments_docCache (s : PState)
    (upperBound : ListenSequenceNumber) (key : DocumentKey) :
    key ∈ (MemoryLruDelegate.removeOrphanedDocuments s upperBound).2.docCache ↔
      key ∈ s.docCache ∧ MemoryLruDelegate.isPinned s key upperBound = true := by
  unfold MemoryLruDelegate.removeOrphanedDocuments
  simp only [removeOrphanedFold_eq, List.mem_filter]
  constructor
  · rintro ⟨hmem, hbuf⟩
    refine ⟨hmem, ?_⟩
    by_contra hpin
    rw [Bool.not_eq_true] at hpin
    rw [Bool.not_eq_true', ← Bool.not_eq_true] at hbuf
    exact hbuf (List.elem_iff.mpr (List.mem_filter.mpr ⟨hmem, by simp [hpin]⟩))
  · rintro ⟨hmem, hpin⟩
    refine ⟨hmem, ?_⟩
    rw [Bool.not_eq_true', ← Bool.not_eq_true]
    intro hcontains
    have hm := List.mem_filter.mp (List.elem_iff.mp hcontains)
    rw [hpin] at hm
    simpa using hm.2

lemma removeOrphanedDocuments_count (s : PState)
    (upperBound : ListenSequenceNumber) :
    (MemoryLruDelegate.removeOrphanedDocuments s upperBound).1 =
      (s.docCache.filter
        (fun k => !(MemoryLruDelegate.isPinned s k upperBound))).length := by
  unfold MemoryLruDelegate.removeOrphanedDocuments
  rw [removeOrphanedFold_eq]

lemma ObjectMap.get_set_self (m : DocumentKey → Option ListenSequenceNumber)
    (key : DocumentKey) (seq : ListenSequenceNumber) :
    ObjectMap.get (ObjectMap.set m key seq) key = some seq := by
  simp [ObjectMap.get, ObjectMap.set]

lemma applyRefEvent_orphanedSequenceNumbers (s : PState)
    (seq : ListenSequenceNumber) (key : DocumentKey) (e : LruRefEvent) :
    (MemoryLruDelegate.applyRefEvent s seq key e).orphanedSequenceNumbers =
      ObjectMap.set s.orphanedSequenceNumbers key seq := by
  cases e <;> rfl

lemma applyRefEvent_frame (s : PState) (seq : ListenSequenceNumber)
    (key : DocumentKey) (e : LruRefEvent) :
    (MemoryLruDelegate.applyRefEvent s seq key e).targets = s.targets
    ∧ (MemoryLruDelegate.applyRefEvent s seq key e).mutationQueues =
        s.mutationQueues
    ∧ (MemoryLruDelegate.applyRefEvent s seq key e).inMemoryPins =
        s.inMemoryPins
    ∧ (MemoryLruDelegate.applyRefEvent s seq key e).docCache = s.docCache := by
  cases e <;> exact ⟨rfl, rfl, rfl, rfl⟩

/-! ## Example states used as concrete witnesses -/

/-- State inside a transaction whose scratch set holds the sole document
key `7`, unreachable from every reference source. -/
def exampleEagerState : PState :=
  { targets := [], mutationQueues := [[]], inMemoryPins := [],
    docCache := [7], orphanedSequenceNumbers := fun _ => none,
    orphanedDocumentsOpt := some [7] }

/-- Empty LRU-mode state outside a transaction. -/
def exampleEmptyState : PState :=
  { targets := [], mutationQueues := [], inMemoryPins := [],
    docCache := [], orphanedSequenceNumbers := fun _ => none,
    orphanedDocumentsOpt := none }

/-- LRU-mode state ready for a sweep: key `5` is pinned by the in-memory
pin set, key `9` was orphaned at sequence `3`. -/
def exampleLruSweepState : PState :=
  { targets := [], mutationQueues := [[]], inMemoryPins := [5],
    docCache := [5, 9],
    orphanedSequenceNumbers := fun k => if k == 9 then some 3 else none,
    orphanedDocumentsOpt := none }

/-- State with one active target (id `1`, last used at sequence `0`)
still matching document key `42`. -/
def exampleTargetState : PState :=
  { targets := [{ data := { targetId := 1, sequenceNumber := 0 },
                  matchingKeys := [42] }],
    mutationQueues := [], inMemoryPins := [], docCache := [42],
    orphanedSequenceNumbers := fun _ => none,
    orphanedDocumentsOpt := none }

/-- `exampleTargetState` inside a transaction (empty scratch set). -/
def exampleTargetStateInTxn : PState :=
  { exampleTargetState with orphanedDocumentsOpt := some [] }

/-- The `TargetData` of the target in `exampleTargetState`. -/
def exampleTargetData : TargetData :=
  { targetId := 1, sequenceNumber := 0 }

/-- LRU-mode state holding only document key `4`, not yet orphaned. -/
def exampleLruDocState : PState :=
  { targets := [], mutationQueues := [], inMemoryPins := [],
    docCache := [4], orphanedSequenceNumbers := fun _ => none,
    orphanedDocumentsOpt := none }

/-- Eager-mode state inside a transaction holding only document key `3`. -/
def exampleEagerDocState : PState :=
  { targets := [], mutationQueues := [], inMemoryPins := [],
    docCache := [3], orphanedSequenceNumbers := fun _ => none,
    orphanedDocumentsOpt := some [] }

/-! ## Claim theorems -/

/-- C1: under the eager delegate, every key in the transaction's
orphan-candidate set that at commit time is in no target, in no
mutation queue, and not in the in-memory pin set has a removal staged in
the document cache's change buffer, and after `onTransactionCommitted`
completes the key is absent from the document cache. -/
theorem eager_exhaustiveness (s : PState) (os : List DocumentKey)
    (key : DocumentKey)
    (hos : s.orphanedDocumentsOpt = some os) (hmem : key ∈ os)
    (htc : targetCacheContainsKey s key = false)
    (hmq : MemoryPersistence.mutationQueuesContainKey s key = false)
    (hpin : pinsContainKey s key = false) :
    MemoryEagerDelegate.onTransactionCommitted s =
        .ok (MemoryEagerDelegate.commitState s os)
    ∧ key ∈ MemoryEagerDelegate.eagerCommitChangeBuffer s os
    ∧ key ∉ (MemoryEagerDelegate.commitState s os).docCache := by
  have href : MemoryEagerDelegate.isReferenced s key = false := by
    rw [isReferenced_eq_or, htc, hmq, hpin]
    rfl
  refine ⟨?_, ?_, ?_⟩
  · simp [MemoryEagerDelegate.onTransactionCommitted,
      MemoryEagerDelegate.orphanedDocuments, hos, Except.map]
  · rw [eagerCommitChangeBuffer_eq]
    exact List.mem_filter.mpr ⟨hmem, by simp [href]⟩
  · rw [mem_commitState_docCache]
    rintro ⟨-, hno⟩
    exact hno ⟨hmem, href⟩

/-- C1 witness: committing `exampleEagerState` removes the unreferenced
orphan candidate `7` from the document cache. -/
theorem eager_exhaustiveness_witness :
    MemoryEagerDelegate.onTransactionCommitted exampleEagerState =
        .ok (MemoryEagerDelegate.commitState exampleEagerState [7])
    ∧ 7 ∈ MemoryEagerDelegate.eagerCommitChangeBuffer exampleEagerState [7]
    ∧ 7 ∉ (MemoryEagerDelegate.commitState exampleEagerState [7]).docCache :=
  eager_exhaustiveness exampleEagerState [7] 7 rfl (by decide) rfl rfl rfl

/-- C2: `removeOrphanedDocuments(txn, U)` retains exactly the document
cache keys whose `isPinned` is true, returns the count of keys deleted
(the keys whose `isPinned` is false), and never deletes a key reachable
at sweep time via any mutation queue, the in-memory pins, or the target
cache, regardless of its stored orphan timestamp. -/
theorem lru_removeOrphanedDocuments_spec (s : PState)
    (upperBound : ListenSequenceNumber) :
    (∀ key,
      key ∈ (MemoryLruDelegate.removeOrphanedDocuments s upperBound).2.docCache ↔
        key ∈ s.docCache ∧ MemoryLruDelegate.isPinned s key upperBound = true)
    ∧ (MemoryLruDelegate.removeOrphanedDocuments s upperBound).1 =
        (s.docCache.filter
          (fun k => !(MemoryLruDelegate.isPinned s k upperBound))).length
    ∧ (∀ key,
        (MemoryPersistence.mutationQueuesContainKey s key ||
         pinsContainKey s key || targetCacheContainsKey s key) = true →
        key ∈ s.docCache →
        key ∈ (MemoryLruDelegate.removeOrphanedDocuments s upperBound).2.docCache) := by
  refine ⟨fun key => mem_removeOrphanedDocuments_docCache s upperBound key,
    removeOrphanedDocuments_count s upperBound, ?_⟩
  intro key hreach hmem
  rw [mem_removeOrphanedDocuments_docCache]
  refine ⟨hmem, ?_⟩
  rw [isPinned_eq_or]
  simp only [Bool.or_eq_true] at hreach ⊢
  tauto

/-- C2 witness: sweeping `exampleLruSweepState` at upper bound `10`
retains the pinned key `5` and reports one deletion (key `9`). -/
theorem lru_removeOrphanedDocuments_spec_witness :
    5 ∈ (MemoryLruDelegate.removeOrphanedDocuments exampleLruSweepState 10).2.docCache
    ∧ (MemoryLruDelegate.removeOrphanedDocuments exampleLruSweepState 10).1 = 1 :=
  ⟨(lru_removeOrphanedDocuments_spec exampleLruSweepState 10).2.2 5
      (by decide) (by decide),
   ((lru_removeOrphanedDocuments_spec exampleLruSweepState 10).2.1).trans
      (by decide)⟩

/-- C3: `isPinned(txn, key, upperBound)` is the lazily evaluated OR, in
this fixed order, of (a) some mutation queue contains the key, (b) the
in-memory pin set contains the key, (c) the target cache contains the
key, (d) the key's orphan timestamp exists and is strictly greater than
`upperBound`; with no orphan-timestamp entry and (a)-(c) false it returns
false, and evaluation stops at the first predicate returning true (the
instrumented count equals the position of the first true predicate). -/
theorem lru_isPinned_spec (s : PState) (key : DocumentKey)
    (upperBound : ListenSequenceNumber) :
    MemoryLruDelegate.isPinned s key upperBound =
      (MemoryPersistence.mutationQueuesContainKey s key ||
       pinsContainKey s key || targetCacheContainsKey s key ||
       MemoryLruDelegate.orphanedAfter s key upperBound)
    ∧ (ObjectMap.get s.orphanedSequenceNumbers key = none →
       MemoryPersistence.mutationQueuesContainKey s key = false →
       pinsContainKey s key = false →
       targetCacheContainsKey s key = false →
       MemoryLruDelegate.isPinned s key upperBound = false)
    ∧ (MemoryPersistence.mutationQueuesContainKey s key = true →
       (MemoryLruDelegate.isPinnedE s key upperBound).2 = 1)
    ∧ (MemoryPersistence.mutationQueuesContainKey s key = false →
       pinsContainKey s key = true →
       (MemoryLruDelegate.isPinnedE s key upperBound).2 = 2)
    ∧ (MemoryPersistence.mutationQueuesContainKey s key = false →
       pinsContainKey s key = false →
       targetCacheContainsKey s key = true →
       (MemoryLruDelegate.isPinnedE s key upperBound).2 = 3)
    ∧ (MemoryPersistence.mutationQueuesContainKey s key = false →
       pinsContainKey s key = false →
       targetCacheContainsKey s key = false →
       (MemoryLruDelegate.isPinnedE s key upperBound).2 = 4
       ∧ MemoryLruDelegate.isPinned s key upperBound =
           MemoryLruDelegate.orphanedAfter s key upperBound) := by
  refine ⟨isPinned_eq_or s key upperBound, ?_, ?_, ?_, ?_, ?_⟩
  · intro h0 h1 h2 h3
    have h4 : MemoryLruDelegate.orphanedAfter s key upperBound = false := by
      unfold MemoryLruDelegate.orphanedAfter
      rw [h0]
    rw [isPinned_eq_or, h1, h2, h3, h4]
    rfl
  · intro h1
    simp [MemoryLruDelegate.isPinnedE, lazyOrCount, h1]
  · intro h1 h2
    simp [MemoryLruDelegate.isPinnedE, lazyOrCount, h1, h2]
  · intro h1 h2 h3
    simp [MemoryLruDelegate.isPinnedE, lazyOrCount, h1, h2, h3]
  · intro h1 h2 h3
    constructor
    · cases h4 : MemoryLruDelegate.orphanedAfter s key upperBound <;>
        simp [MemoryLruDelegate.isPinnedE, lazyOrCount, h1, h2, h3, h4]
    · rw [isPinned_eq_or, h1, h2, h3]
      rfl

/-- C3 witness: in `exampleEmptyState` every predicate of `isPinned` is
false and key `3` has no orphan-timestamp entry, so `isPinned` is false
and all four predicates were evaluated. -/
theorem lru_isPinned_spec_witness :
    MemoryLruDelegate.isPinned exampleEmptyState 3 5 = false
    ∧ (MemoryLruDelegate.isPinnedE exampleEmptyState 3 5).2 = 4 :=
  ⟨(lru_isPinned_spec exampleEmptyState 3 5).2.1 rfl rfl rfl rfl,
   ((lru_isPinned_spec exampleEmptyState 3 5).2.2.2.2.2 rfl rfl rfl).1⟩

/-- C4 counterexample: in `exampleTargetState`, the LRU delegate's
`removeTarget` at sequence `5` leaves target `1`'s metadata in the
target cache and marks no document as orphaned — refuting the claim that
both delegates first orphan the matched documents and then delete the
target's metadata. -/
theorem removeTarget_lru_counterexample :
    ((MemoryLruDelegate.removeTarget exampleTargetState 5
        exampleTargetData).targets.any
      (fun e => e.data.targetId == 1)) = true
    ∧ ObjectMap.get
        (MemoryLruDelegate.removeTarget exampleTargetState 5
          exampleTargetData).orphanedSequenceNumbers 42 = none := by
  exact ⟨by decide, rfl⟩

/-- C4 amended: only the eager delegate's `removeTarget` first marks
every document the torn-down target was still matching as orphaned and
then deletes the target's metadata from the target cache; the LRU
delegate's `removeTarget` instead rewrites the target's metadata with the
current transaction's sequence number, deleting no target metadata and
marking no documents as orphaned. -/
theorem removeTarget_amended :
    (∀ (s : PState) (os : List DocumentKey) (td : TargetData),
      s.orphanedDocumentsOpt = some os →
        MemoryEagerDelegate.removeTarget s td =
            .ok (MemoryEagerDelegate.removeTargetState s os td)
        ∧ (MemoryEagerDelegate.removeTargetState s os td).orphanedDocumentsOpt =
            some ((getMatchingKeysForTargetId s td.targetId).foldl setAdd os)
        ∧ (∀ key ∈ getMatchingKeysForTargetId s td.targetId,
            key ∈ (getMatchingKeysForTargetId s td.targetId).foldl setAdd os)
        ∧ ((MemoryEagerDelegate.removeTargetState s os td).targets.all
            (fun e => e.data.targetId != td.targetId)) = true)
    ∧ (∀ (s : PState) (seq : ListenSequenceNumber) (td : TargetData),
        (MemoryLruDelegate.removeTarget s seq td).orphanedSequenceNumbers =
            s.orphanedSequenceNumbers
        ∧ (MemoryLruDelegate.removeTarget s seq td).docCache = s.docCache
        ∧ (MemoryLruDelegate.removeTarget s seq td).targets =
            s.targets.map (fun e =>
              if e.data.targetId == td.targetId then
                { e with data := td.withSequenceNumber seq }
              else e)) := by
  constructor
  · intro s os td hos
    refine ⟨?_, rfl, ?_, ?_⟩
    · simp [MemoryEagerDelegate.removeTarget,
        MemoryEagerDelegate.orphanedDocuments, hos, Except.map]
    · intro key hk
      rw [mem_foldl_setAdd]
      exact Or.inr hk
    · rw [List.all_eq_true]
      intro e he
      have := List.mem_filter.mp he
      exact this.2
  · intro s seq td
    exact ⟨rfl, rfl, rfl⟩

/-- C4 witness: tearing down target `1` under the eager delegate in
`exampleTargetStateInTxn` marks matched key `42` as an orphan candidate
and removes the target's metadata. -/
theorem removeTarget_amended_witness :
    MemoryEagerDelegate.removeTarget exampleTargetStateInTxn exampleTargetData =
        .ok (MemoryEagerDelegate.removeTargetState exampleTargetStateInTxn []
              exampleTargetData)
    ∧ 42 ∈ (getMatchingKeysForTargetId exampleTargetStateInTxn 1).foldl setAdd []
    ∧ ((MemoryEagerDelegate.removeTargetState exampleTargetStateInTxn []
          exampleTargetData).targets.all
        (fun e => e.data.targetId != 1)) = true :=
  ⟨(removeTarget_amended.1 exampleTargetStateInTxn [] exampleTargetData rfl).1,
   (removeTarget_amended.1 exampleTargetStateInTxn [] exampleTargetData
      rfl).2.2.1 42 (by decide),
   (removeTarget_amended.1 exampleTargetStateInTxn [] exampleTargetData
      rfl).2.2.2⟩

/-- C5: under the LRU delegate, if key K's orphan-timestamp entry is set
at sequence S1 and then overwritten at sequence S2 > S1 by any later
reference event (`addReference`, `removeReference`,
`removeMutationReference`, or `updateLimboDocument`), a sweep with upper
bound U where S1 <= U < S2 sees timestamp S2 > U, so K is pinned and
`removeOrphanedDocuments` retains it. -/
theorem lru_monotonic_retention (s : PState) (key : DocumentKey)
    (S1 S2 upperBound : ListenSequenceNumber) (e1 e2 : LruRefEvent)
    (h1 : S1 ≤ upperBound) (h2 : upperBound < S2) :
    ObjectMap.get
        (MemoryLruDelegate.applyRefEvent
          (MemoryLruDelegate.applyRefEvent s S1 key e1) S2 key
          e2).orphanedSequenceNumbers key = some S2
    ∧ MemoryLruDelegate.isPinned
        (MemoryLruDelegate.applyRefEvent
          (MemoryLruDelegate.applyRefEvent s S1 key e1) S2 key e2)
        key upperBound = true
    ∧ (key ∈ (MemoryLruDelegate.applyRefEvent
          (MemoryLruDelegate.applyRefEvent s S1 key e1) S2 key e2).docCache →
       key ∈ (MemoryLruDelegate.removeOrphanedDocuments
          (MemoryLruDelegate.applyRefEvent
            (MemoryLruDelegate.applyRefEvent s S1 key e1) S2 key e2)
          upperBound).2.docCache) := by
  have hget : ObjectMap.get
      (MemoryLruDelegate.applyRefEvent
        (MemoryLruDelegate.applyRefEvent s S1 key e1) S2 key
        e2).orphanedSequenceNumbers key = some S2 := by
    rw [applyRefEvent_orphanedSequenceNumbers]
    exact ObjectMap.get_set_self _ key S2
  have horph : MemoryLruDelegate.orphanedAfter
      (MemoryLruDelegate.applyRefEvent
        (MemoryLruDelegate.applyRefEvent s S1 key e1) S2 key e2)
      key upperBound = true := by
    unfold MemoryLruDelegate.orphanedAfter
    rw [hget]
    exact decide_eq_true h2
  have hpin : MemoryLruDelegate.isPinned
      (MemoryLruDelegate.applyRefEvent
        (MemoryLruDelegate.applyRefEvent s S1 key e1) S2 key e2)
      key upperBound = true := by
    rw [isPinned_eq_or, horph]
    simp
  refine ⟨hget, hpin, ?_⟩
  intro hmem
  rw [mem_removeOrphanedDocuments_docCache]
  exact ⟨hmem, hpin⟩

/-- C5 witness: key `4` orphaned at sequence `5` and re-referenced at
sequence `7` survives a sweep with upper bound `6`. -/
theorem lru_monotonic_retention_witness :
    ObjectMap.get
        (MemoryLruDelegate.applyRefEvent
          (MemoryLruDelegate.applyRefEvent exampleLruDocState 5 4
            LruRefEvent.removeReference) 7 4
          LruRefEvent.addReference).orphanedSequenceNumbers 4 = some 7
    ∧ MemoryLruDelegate.isPinned
        (MemoryLruDelegate.applyRefEvent
          (MemoryLruDelegate.applyRefEvent exampleLruDocState 5 4
            LruRefEvent.removeReference) 7 4 LruRefEvent.addReference)
        4 6 = true
    ∧ 4 ∈ (MemoryLruDelegate.removeOrphanedDocuments
        (MemoryLruDelegate.applyRefEvent
          (MemoryLruDelegate.applyRefEvent exampleLruDocState 5 4
            LruRefEvent.removeReference) 7 4 LruRefEvent.addReference)
        6).2.docCache := by
  have h := lru_monotonic_retention exampleLruDocState 4 5 7 6
    LruRefEvent.removeReference LruRefEvent.addReference
    (by decide) (by decide)
  exact ⟨h.1, h.2.1, h.2.2 (by decide)⟩

/-- C6: under the eager delegate, `removeReference` followed by
`addReference` for the same key within one transaction leaves the key
outside the orphan-candidate set, so `onTransactionCommitted` stages no
removal for it and the key stays in the document cache. -/
theorem eager_cancel_on_add (s : PState) (os : List DocumentKey)
    (key : DocumentKey) (hos : s.orphanedDocumentsOpt = some os) :
    MemoryEagerDelegate.removeReference s key =
        .ok { s with orphanedDocumentsOpt := some (setAdd os key) }
    ∧ MemoryEagerDelegate.addReference
        { s with orphanedDocumentsOpt := some (setAdd os key) } key =
        .ok { s with orphanedDocumentsOpt := some (setDelete (setAdd os key) key) }
    ∧ key ∉ setDelete (setAdd os key) key
    ∧ MemoryEagerDelegate.onTransactionCommitted
        { s with orphanedDocumentsOpt := some (setDelete (setAdd os key) key) } =
        .ok (MemoryEagerDelegate.commitState
              { s with orphanedDocumentsOpt := some (setDelete (setAdd os key) key) }
              (setDelete (setAdd os key) key))
    ∧ (key ∈ s.docCache →
        key ∈ (MemoryEagerDelegate.commitState
                { s with orphanedDocumentsOpt := some (setDelete (setAdd os key) key) }
                (setDelete (setAdd os key) key)).docCache) := by
  have hnot : key ∉ setDelete (setAdd os key) key := by
    rw [mem_setDelete]
    rintro ⟨-, hne⟩
    exact hne rfl
  refine ⟨?_, ?_, hnot, ?_, ?_⟩
  · simp [MemoryEagerDelegate.removeReference,
      MemoryEagerDelegate.orphanedDocuments, hos, Except.map]
  · simp [MemoryEagerDelegate.addReference,
      MemoryEagerDelegate.orphanedDocuments, Except.map]
  · simp [MemoryEagerDelegate.onTransactionCommitted,
      MemoryEagerDelegate.orphanedDocuments, Except.map]
  · intro hmem
    rw [mem_commitState_docCache]
    refine ⟨hmem, ?_⟩
    rintro ⟨hin, -⟩
    exact hnot hin

/-- C6 witness: removing then re-adding a reference to key `3` in
`exampleEagerDocState` leaves `3` outside the orphan-candidate set and in
the document cache after commit. -/
theorem eager_cancel_on_add_witness :
    MemoryEagerDelegate.removeReference exampleEagerDocState 3 =
        .ok { exampleEagerDocState with
                orphanedDocumentsOpt := some (setAdd [] 3) }
    ∧ 3 ∉ setDelete (setAdd [] 3) 3
    ∧ 3 ∈ (MemoryEagerDelegate.commitState
            { exampleEagerDocState with
                orphanedDocumentsOpt := some (setDelete (setAdd [] 3) 3) }
            (setDelete (setAdd [] 3) 3)).docCache := by
  have h := eager_cancel_on_add exampleEagerDocState [] 3 rfl
  exact ⟨h.1, h.2.2.1, h.2.2.2.2 (by decide)⟩

/-- C7: the eager delegate's `orphanedDocuments` accessor fails with the
unconditional internal assertion failure (not a recoverable
`FirestoreError`) exactly when the scratch set is null — i.e. outside
the window opened by `onTransactionStarted` and closed by
`onTransactionCommitted`, which nulls the set — and never fails inside
that window. -/
theorem eager_orphanedDocuments_window :
    (∀ s : PState, s.orphanedDocumentsOpt = none →
      MemoryEagerDelegate.orphanedDocuments s =
        .error (.assertionFailure ORPHANED_DOCUMENTS_ASSERTION_MESSAGE))
    ∧ (∀ (s : PState) (os : List DocumentKey),
        s.orphanedDocumentsOpt = some os →
        MemoryEagerDelegate.orphanedDocuments s = .ok os)
    ∧ (∀ s : PState,
        (MemoryEagerDelegate.onTransactionStarted s).orphanedDocumentsOpt =
          some [])
    ∧ (∀ (s s2 : PState),
        MemoryEagerDelegate.onTransactionCommitted s = .ok s2 →
        s2.orphanedDocumentsOpt = none) := by
  refine ⟨?_, ?_, fun s => rfl, ?_⟩
  · intro s h
    simp [MemoryEagerDelegate.orphanedDocuments, h]
  · intro s os h
    simp [MemoryEagerDelegate.orphanedDocuments, h]
  · intro s s2 h
    cases hos : s.orphanedDocumentsOpt with
    | none =>
      simp [MemoryEagerDelegate.onTransactionCommitted,
        MemoryEagerDelegate.orphanedDocuments, hos, Except.map] at h
    | some os =>
      simp [MemoryEagerDelegate.onTransactionCommitted,
        MemoryEagerDelegate.orphanedDocuments, hos, Except.map] at h
      rw [← h]
      rfl

/-- C7 witness: accessing the scratch set in `exampleTargetState`
(outside a transaction) fails with the assertion failure; inside the
window of `exampleEagerState` it succeeds; `onTransactionStarted` opens
the window and a committed transaction leaves it closed. -/
theorem eager_orphanedDocuments_window_witness :
    MemoryEagerDelegate.orphanedDocuments exampleTargetState =
        .error (.assertionFailure ORPHANED_DOCUMENTS_ASSERTION_MESSAGE)
    ∧ MemoryEagerDelegate.orphanedDocuments exampleEagerState = .ok [7]
    ∧ (MemoryEagerDelegate.onTransactionStarted
        exampleTargetState).orphanedDocumentsOpt = some []
    ∧ (MemoryEagerDelegate.commitState exampleEagerState
        [7]).orphanedDocumentsOpt = none := by
  have h := eager_orphanedDocuments_window
  exact ⟨h.1 exampleTargetState rfl, h.2.1 exampleEagerState [7] rfl,
    h.2.2.1 exampleTargetState,
    h.2.2.2 exampleEagerState (MemoryEagerDelegate.commitState
      exampleEagerState [7]) rfl⟩

/-- C8: `MemoryPersistenceProvider.initialize` with settings requesting
durable storage throws the `FAILED_PRECONDITION` `FirestoreError`
carrying the fixed memory-only message before constructing any object,
and `clearPersistence` always throws that same error. -/
theorem memory_only_rejection :
    (∀ settings : PersistenceSettings, settings.durable = true →
      MemoryPersistenceProvider.initializeProvider settings =
        ([], .error (.firestoreError .FAILED_PRECONDITION
            MEMORY_ONLY_PERSISTENCE_ERROR_MESSAGE)))
    ∧ MemoryPersistenceProvider.clearPersistence =
        .error (.firestoreError .FAILED_PRECONDITION
          MEMORY_ONLY_PERSISTENCE_ERROR_MESSAGE) := by
  refine ⟨?_, rfl⟩
  intro settings h
  simp [MemoryPersistenceProvider.initializeProvider, h]

/-- C8 witness: initialization with `durable := true` fails with the
fixed precondition error and an empty construction trace. -/
theorem memory_only_rejection_witness :
    MemoryPersistenceProvider.initializeProvider { durable := true } =
        ([], .error (.firestoreError .FAILED_PRECONDITION
            MEMORY_ONLY_PERSISTENCE_ERROR_MESSAGE))
    ∧ MemoryPersistenceProvider.clearPersistence =
        .error (.firestoreError .FAILED_PRECONDITION
          MEMORY_ONLY_PERSISTENCE_ERROR_MESSAGE) :=
  ⟨memory_only_rejection.1 { durable := true } rfl, memory_only_rejection.2⟩

/-- C9: every persistence instance that `initialize` constructs carries
the eager reference delegate; the LRU delegate is never selected through
the provider. -/
theorem provider_always_eager (settings : PersistenceSettings)
    (trace : List ConstructedObject) (ps : ProviderState)
    (h : MemoryPersistenceProvider.initializeProvider settings = (trace, .ok ps)) :
    ps.persistence.referenceDelegate = DelegateKind.eager := by
  by_cases hd : settings.durable
  · simp [MemoryPersistenceProvider.initializeProvider, hd] at h
  · simp [MemoryPersistenceProvider.initializeProvider, hd] at h
    rw [← h.2]

/-- C9 witness: initialization with `durable := false` yields a
persistence running the eager delegate. -/
theorem provider_always_eager_witness :
    (ProviderState.persistence
      { persistence := { referenceDelegate := DelegateKind.eager } }).referenceDelegate =
      DelegateKind.eager :=
  provider_always_eager { durable := false }
    [.persistence, .sharedClientState, .localStore, .syncEngine]
    { persistence := { referenceDelegate := DelegateKind.eager } } rfl

/-- C10: for the scheduler returned by
`getGarbageCollectionScheduler`, `start()` and `stop()` assign only the
captured local variable, so the object's visible `started` property is
unchanged by any call and stays at its initial value `false`. -/
theorem scheduler_started_write_only :
    (∀ s : GarbageCollectionScheduler,
      (GarbageCollectionScheduler.start s).started = s.started
      ∧ (GarbageCollectionScheduler.stop s).started = s.started)
    ∧ (∀ calls : List SchedulerCall,
        (applySchedulerCalls calls
          MemoryPersistenceProvider.getGarbageCollectionScheduler).started =
          false) := by
  have key : ∀ (calls : List SchedulerCall) (s : GarbageCollectionScheduler),
      (applySchedulerCalls calls s).started = s.started := by
    intro calls
    induction calls with
    | nil => intro s; rfl
    | cons c calls ih =>
      intro s
      cases c <;> exact ih _
  exact ⟨fun s => ⟨rfl, rfl⟩, fun calls => key calls _⟩
